import Mathlib

/-!
Verification development for the Twilio call-routing / after-hours lead-capture
webhook server.  The JavaScript handlers are shallowly embedded as pure Lean
functions: request fields become explicit arguments, the ambient clock read
(`new Date()`) becomes an explicit instant argument, thrown exceptions become
explicit propagated flags, and the outbound side effects (SMS / email sends)
become lists of attempted channel dispatches returned by the handler.
-/

/-! ## Character and string helpers (JS string semantics) -/

/-- Whitespace characters recognised by the JS `\s` class and `String.trim`
(restricted to the ASCII whitespace actually occurring in this system). -/
def isSpaceChar (c : Char) : Bool :=
  c = ' ' || c = '\t' || c = '\n' || c = '\r'

/-- Drop leading and trailing whitespace from a character list. -/
def trimChars (l : List Char) : List Char :=
  ((l.dropWhile (fun c => isSpaceChar c)).reverse.dropWhile (fun c => isSpaceChar c)).reverse

/-- Collapse every run of whitespace into a single space, as the JS
replacement of `\s+` by a single space does. -/
def collapseWs : List Char → List Char
  | [] => []
  | [c] => [if isSpaceChar c then ' ' else c]
  | a :: b :: t =>
    if isSpaceChar a && isSpaceChar b then collapseWs (b :: t)
    else (if isSpaceChar a then ' ' else a) :: collapseWs (b :: t)

/-- Lowercased character list of a string, as JS `toLowerCase` produces for
the ASCII strings this system handles. -/
def toLowerList (s : String) : List Char :=
  s.toList.map Char.toLower

/-- JS `String.prototype.toLowerCase` on the ASCII strings of this system. -/
def jsToLower (s : String) : String :=
  String.mk (toLowerList s)

/-- JS `String.prototype.trim`. -/
def jsTrim (s : String) : String :=
  String.mk (trimChars s.toList)

/-- Substring test: does `sub` occur contiguously inside `hay`?  This is JS
`String.prototype.includes` on character lists. -/
def hasSubstr : List Char → List Char → Bool
  | _, [] => true
  | [], _ :: _ => false
  | a :: t, s :: ss => List.isPrefixOf (s :: ss) (a :: t) || hasSubstr t (s :: ss)

/-- JS `s.includes(pat)`. -/
def strContains (s pat : String) : Bool :=
  hasSubstr s.toList pat.toList

/-! ## Business-hours evaluator (`isWithinBusinessHours`)

The source reads the ambient clock (`new Date()`), localizes it with
`Intl.DateTimeFormat` to an hour-of-day in the configured time zone, and
compares `hour >= start && hour < end`.  The instant becomes an explicit
millisecond timestamp argument; the time-zone database lookup performed by the
external `Intl` library is modelled as a fixed minute offset. -/

/-- Hour-of-day (0..23) of the instant `nowMs` (milliseconds) localized by a
time-zone offset in minutes.  Models the `Intl.DateTimeFormat` hour field. -/
def localHour (nowMs : Nat) (tzOffsetMin : Int) : Nat :=
  (((Int.ofNat (nowMs / 60000) + tzOffsetMin) / 60) % 24).toNat

/-- The `isWithinBusinessHours` helper: localize the instant, then compare
`hour >= start && hour < end` (source comment: start=8 end=17 means
8:00 to 16:59). -/
def isWithinBusinessHours (nowMs : Nat) (tzOffsetMin : Int)
    (start end_ : Nat) : Bool :=
  let hour := localHour nowMs tzOffsetMin
  decide (hour ≥ start) && decide (hour < end_)

/-- The ambient server environment visible to a request handler: the clock
instant, the configured time zone and weekly window, and unrelated ambient
data (request fields, optional credentials) that the business-hours evaluator
must not consult. -/
structure ServerEnv where
  nowMs : Nat
  tzOffsetMin : Int
  businessStart : Nat
  businessEnd : Nat
  fromNumber : String
  speechResult : String
  sendgridKey : String

/-- `isWithinBusinessHours` as the source calls it: reading the instant, time
zone and window out of the ambient environment. -/
def isWithinBusinessHoursEnv (env : ServerEnv) : Bool :=
  isWithinBusinessHours env.nowMs env.tzOffsetMin env.businessStart env.businessEnd

/-! ## Call outcome classifier (`consideredAnswered`)

Embeds the variant cited by the claims (index.cjs and part_002):
`completed` with positive duration, or any nonempty `answeredBy`, counts as
answered. -/

/-- The `consideredAnswered` helper.  `answeredBy = ""` models an absent
`AnsweredBy` field (JS falsy). -/
def consideredAnswered (dialCallStatus answeredBy : String)
    (dialCallDuration : Nat) : Bool :=
  if dialCallStatus = "completed" ∧ dialCallDuration > 0 then true
  else if answeredBy ≠ "" ∧ (jsTrim answeredBy).length > 0 then true
  else false

/-! ## Urgency classifier (`urgent` in the /afterhours handler) -/

/-- The urgency decision of the /afterhours handler: lowercase the extracted
`emergency` field and test it for the substrings "yes", "urgent",
"emergency".  The raw transcript is not an input of this computation. -/
def urgentFlag (emergency : String) : Bool :=
  let f := jsToLower emergency
  strContains f "yes" || strContains f "urgent" || strContains f "emergency"

/-- Modelled from the spec: the fixed emergency keyword set the specification
associates with urgent transcripts (flooding, bursting, cannot-stop, explicit
urgent/emergency words). -/
def emergencyKeywords : List String :=
  ["flooding", "bursting", "cannot stop", "urgent", "emergency"]

/-- Modelled from the spec: whether the raw transcript contains at least one
word of the fixed emergency keyword set. -/
def specTranscriptSignal (transcript : String) : Bool :=
  emergencyKeywords.any (fun k => strContains (jsToLower transcript) k)

/-- Modelled from the spec: the structured emergency field explicitly signals
affirmative. -/
def specStructuredAffirmative (emergency : String) : Bool :=
  jsToLower emergency = "yes"

/-- Modelled from the spec: the urgency policy the claim states — structured
affirmative OR transcript keyword. -/
def specUrgencyClassifier (emergency transcript : String) : Bool :=
  specStructuredAffirmative emergency || specTranscriptSignal transcript

/-! ## Gazetteer matcher (`bestSydneySuburb`)

The repository normalizes the query (`cleanLocationText`), hands it to the
external fuzzy-matching dependency (fuse.js, configured with
`threshold: 0.35`, `distance: 50`), takes the top-ranked result and accepts it
only when its score clears `0.30`.  The list, the normalization, the
empty-query guard and the acceptance threshold are translated from the source;
the approximate search itself is external library code. -/

/-- Characters the `cleanLocationText` regex keeps: `a`-`z`, whitespace,
apostrophe (code 39) and hyphen; everything else is replaced by a space. -/
def isKeepChar (c : Char) : Bool :=
  ('a' ≤ c && c ≤ 'z') || isSpaceChar c || c.toNat = 39 || c = '-'

/-- The `cleanLocationText` helper: lowercase, replace every character
outside `[a-z\s'-]` by a space, collapse whitespace runs, trim. -/
def cleanLocationText (s : String) : String :=
  String.mk (trimChars (collapseWs
    ((toLowerList s).map (fun c => if isKeepChar c then c else ' '))))

/-- The fixed gazetteer: the `sydneySuburbs` list of index.cjs. -/
def sydneySuburbs : List String :=
  ["Sydney", "Parramatta", "Liverpool", "Penrith", "Blacktown", "Bankstown",
   "Campbelltown", "Fairfield", "Cabramatta", "Canley Vale", "Canley Heights",
   "Bonnyrigg", "Wetherill Park", "Smithfield", "Bossley Park", "Edensor Park",
   "Green Valley", "Mount Pritchard", "Wakeley", "Villawood", "Carramar",
   "Guildford", "Granville", "Auburn", "Strathfield", "Burwood", "Ashfield",
   "Newtown", "Chatswood", "Hurstville", "Kogarah", "Sutherland", "Cronulla",
   "Bondi", "Bondi Junction", "Manly", "Dee Why", "Ryde", "Epping",
   "Castle Hill", "Rouse Hill"]

/-- Levenshtein edit distance between two character lists (unit costs for
insertion, deletion and substitution). -/
def editDist : List Char → List Char → Nat
  | [], b => b.length
  | a :: as, [] => (a :: as).length
  | a :: as, b :: bs =>
    if a = b then editDist as bs
    else 1 + Nat.min (editDist as (b :: bs))
          (Nat.min (editDist (a :: as) bs) (editDist as bs))
  termination_by a b => a.length + b.length
  decreasing_by all_goals simp_arith

/-- All contiguous substrings of a character list: the prefixes of its
suffixes. -/
def substrings (t : List Char) : List (List Char) :=
  (t.tails.map List.inits).flatten

/-- Modelled from the spec: the token-aware, location-agnostic
edit-distance-like similarity of the external fuzzy matcher is modelled as the
minimal edit distance between the query and any contiguous substring of the
candidate: a matching substring anywhere in the candidate counts, and an
exact occurrence scores zero. -/
def fuseDist (q t : List Char) : Nat :=
  ((substrings t).map (fun s => editDist q s)).foldl Nat.min q.length

/-- Modelled from the spec: the ranked search of the external fuzzy matcher,
reduced to the datum the caller consumes — the top-ranked candidate and its
distance.  Candidates are compared case-insensitively against the normalized
query; ties keep the earlier list entry, matching the stable ordering of the
library's ranked results. -/
def bestCandidateIn (q : List Char) : List String → Option (String × Nat)
  | [] => none
  | e :: rest =>
    let d := fuseDist q (toLowerList e)
    match bestCandidateIn q rest with
    | none => some (e, d)
    | some (b, db) => if db < d then some (b, db) else some (e, d)

/-- The `bestSydneySuburb` helper: normalize the raw text, return the empty
string for an empty query, otherwise take the top-ranked gazetteer candidate
and accept it only when its normalized score clears the `0.30` bar of the
source (`10 * distance ≤ 3 * query length`). -/
def bestSydneySuburb (raw : String) : String :=
  let q := (cleanLocationText raw).toList
  if q = [] then ""
  else
    match bestCandidateIn q sydneySuburbs with
    | none => ""
    | some (e, d) => if 10 * d ≤ 3 * q.length then e else ""

/-! ## Notification dispatch and the webhook handlers

Outbound sends are modelled as a list of attempted channel dispatches.  A JS
`await client.messages.create(...)` that is wrapped in its own `try { } catch`
is an attempt whose failure never propagates; an unwrapped one propagates its
failure to the handler's outer `catch`, skipping everything after it. -/

/-- The structured record the OpenAI extraction returns, and the shape of the
handler's fallback default. -/
structure Extracted where
  name : String
  location : String
  issue : String
  emergency : String
  deriving DecidableEq

/-- The independent delivery channels of the notifier. -/
inductive Channel
  | ownerSms
  | callerSms
  | ownerEmail
  deriving DecidableEq

/-- Which channel sends fail during one request (a fault scenario). -/
structure ChannelFails where
  ownerSms : Bool
  callerSms : Bool
  email : Bool

/-- The fault-free scenario: every channel send succeeds. -/
def noFailures : ChannelFails :=
  ⟨false, false, false⟩

/-- A send wrapped in its own `try/catch`: the attempt happens and a failure
is swallowed (never propagates). -/
def attemptCaught (ch : Channel) (_fails : Bool) : List Channel × Bool :=
  ([ch], false)

/-- A bare `await` send: the attempt happens and a failure propagates to the
enclosing handler `catch`. -/
def attemptUncaught (ch : Channel) (fails : Bool) : List Channel × Bool :=
  ([ch], fails)

/-- Sequencing of two send steps under exception semantics: if the first step
raised, the second never runs. -/
def seqAttempt (s : List Channel × Bool) (next : Unit → List Channel × Bool) :
    List Channel × Bool :=
  if s.2 then s
  else
    let n := next ()
    (s.1 ++ n.1, n.2)

/-- The send section of the /afterhours handler: the owner SMS is wrapped in
its own `try/catch`, and the optional owner email is wrapped in its own
`try/catch`.  Returns the attempted channels and whether an exception escaped
to the handler's outer `catch`. -/
def afterhoursSendPhase (emailConfigured : Bool) (f : ChannelFails) :
    List Channel × Bool :=
  seqAttempt (attemptCaught Channel.ownerSms f.ownerSms) (fun _ =>
    if emailConfigured then attemptCaught Channel.ownerEmail f.email
    else ([], false))

/-- The send section of the /post_dial handler on the missed branch: the owner
SMS and the caller SMS are bare `await`s inside the outer `try` (their failure
aborts the handler), while the optional email is wrapped in its own
`try/catch`. -/
def postDialSendPhase (callerPlus emailConfigured : Bool) (f : ChannelFails) :
    List Channel × Bool :=
  seqAttempt (attemptUncaught Channel.ownerSms f.ownerSms) (fun _ =>
    seqAttempt
      (if callerPlus then attemptUncaught Channel.callerSms f.callerSms
       else ([], false))
      (fun _ =>
        if emailConfigured then attemptCaught Channel.ownerEmail f.email
        else ([], false)))

/-- The /post_dial handler: classify the dial result; on the missed branch run
the send section. -/
def postDialHandler (dialCallStatus answeredBy : String)
    (dialCallDuration : Nat) (callerPlus emailConfigured : Bool)
    (f : ChannelFails) : List Channel × Bool :=
  if consideredAnswered dialCallStatus answeredBy dialCallDuration then
    ([], false)
  else postDialSendPhase callerPlus emailConfigured f

/-- The observable outcome of one /afterhours webhook delivery: the channel
sends attempted, the final lead record used in them, and the urgency flag that
selects the spoken reply. -/
structure AfterhoursOutcome where
  attempts : List Channel
  record : Extracted
  urgent : Bool
  deriving DecidableEq

/-- The /afterhours handler of index.cjs.  `speechRaw` is the posted
`SpeechResult`; `extractionResult` is the outcome of the external extraction
call (`none` models a disabled extractor, a transport failure, a timeout, or
a response from which no JSON object could be parsed — the handler's
`try/catch` keeps its fallback default in all of those cases).  The server
keeps no per-call session state, so the whole outcome is a function of this
one request. -/
def afterhoursHandler (emailConfigured : Bool) (f : ChannelFails)
    (speechRaw : String) (extractionResult : Option Extracted) :
    AfterhoursOutcome :=
  let speech := jsTrim speechRaw
  if speech = "" then ⟨[], ⟨"", "", "", ""⟩, false⟩
  else
    let extracted0 := extractionResult.getD ⟨"", "", speech, ""⟩
    let fixedSuburb := bestSydneySuburb extracted0.location
    let extracted :=
      if fixedSuburb ≠ "" then { extracted0 with location := fixedSuburb }
      else extracted0
    ⟨(afterhoursSendPhase emailConfigured f).1, extracted,
     urgentFlag extracted.emergency⟩

/-- Owner notifications dispatched when the same final dialogue turn is
delivered twice (a duplicate webhook delivery of /afterhours with the same
caller and speech result): the server holds no session state, so the second
delivery is handled exactly like the first. -/
def afterhoursTwoDeliveries (emailConfigured : Bool) (f : ChannelFails)
    (speechRaw : String) (extractionResult : Option Extracted) : Nat :=
  (afterhoursHandler emailConfigured f speechRaw extractionResult).attempts.count
      Channel.ownerSms
    + (afterhoursHandler emailConfigured f speechRaw extractionResult).attempts.count
      Channel.ownerSms

/-! ## The /voice handlers and their error responses -/

/-- An HTTP response as the claims observe it: the status code, the body, and
whether the body is a call-control (TwiML) document. -/
structure HttpResponse where
  status : Nat
  body : String
  isTwiml : Bool
  deriving DecidableEq

/-- The /voice handler of index.js: `requireEnv` throws when `OWNER_NUMBER`
is absent, and the `catch` answers with a plain `500 Server error`; otherwise
a dial document is returned. -/
def voiceHandlerJs (ownerNumber : Option String) : HttpResponse :=
  match ownerNumber with
  | some _ => ⟨200, "twiml dial", true⟩
  | none => ⟨500, "Server error", false⟩

/-- The /voice handler of index.cjs: any internal failure is caught and
answered with a spoken apology plus hangup document; otherwise the handler
returns the dial document (business hours) or the after-hours gather
document. -/
def voiceHandlerCjs (internalFailure inHours : Bool) : HttpResponse :=
  if internalFailure then ⟨200, "twiml apology hangup", true⟩
  else if inHours then ⟨200, "twiml dial", true⟩
  else ⟨200, "twiml afterhours gather", true⟩

/-! ## Helper lemmas -/

/-- A string is nonempty exactly when its length is positive. -/
theorem string_ne_empty_iff (s : String) : s ≠ "" ↔ 0 < s.length := by
  obtain ⟨l⟩ := s
  constructor
  · intro h
    cases l with
    | nil => exact absurd rfl h
    | cons a t => exact Nat.succ_pos _
  · intro h heq
    cases l with
    | nil => exact Nat.lt_irrefl 0 h
    | cons a t => exact absurd (congrArg String.data heq) (by simp)

/-- `hasSubstr` decides the contiguous-substring relation. -/
theorem hasSubstr_iff (hay sub : List Char) :
    hasSubstr hay sub = true ↔ sub <:+: hay := by
  induction hay with
  | nil =>
    cases sub with
    | nil => simp [hasSubstr]
    | cons s ss => simp [hasSubstr, List.infix_nil]
  | cons a t ih =>
    cases sub with
    | nil => simp [hasSubstr]
    | cons s ss =>
      simp only [hasSubstr, Bool.or_eq_true, List.infix_cons_iff,
        List.isPrefixOf_iff_prefix, ih]

/-- The top-ranked candidate always comes from the searched list. -/
theorem bestCandidateIn_mem :
    ∀ (l : List String) (q : List Char) (p : String × Nat),
      bestCandidateIn q l = some p → p.1 ∈ l := by
  intro l
  induction l with
  | nil => intro q p h; simp [bestCandidateIn] at h
  | cons e rest ih =>
    intro q p h
    simp only [bestCandidateIn] at h
    rcases hrec : bestCandidateIn q rest with _ | ⟨b, db⟩ <;> rw [hrec] at h <;>
      dsimp only at h
    · rw [Option.some_inj] at h
      subst h
      exact List.mem_cons_self e rest
    · split_ifs at h <;> rw [Option.some_inj] at h <;> subst h
      · exact List.mem_cons_of_mem e (ih q (b, db) hrec)
      · exact List.mem_cons_self e rest

/-! ## Claim theorems -/

/-- C1 counterexample: a duplicate delivery of the final /afterhours turn
with the same caller and speech result dispatches two owner notifications,
not exactly one — the server holds no session state to deduplicate on. -/
theorem afterhours_duplicate_two_dispatches :
    afterhoursTwoDeliveries true noFailures "burst pipe flooding everywhere" none = 2 ∧
    afterhoursTwoDeliveries true noFailures "burst pipe flooding everywhere" none ≠ 1 := by
  decide

/-- C1 amended: every delivery of an /afterhours webhook with a nonempty
speech result dispatches exactly one owner text notification, so two
deliveries of the same final turn dispatch two. -/
theorem afterhours_dispatch_per_delivery (ec : Bool) (f : ChannelFails)
    (sp : String) (ex : Option Extracted) (h : jsTrim sp ≠ "") :
    afterhoursTwoDeliveries ec f sp ex = 2 := by
  unfold afterhoursTwoDeliveries afterhoursHandler
  rw [if_neg h]
  cases ec <;>
    simp [afterhoursSendPhase, seqAttempt, attemptCaught, List.count_cons]

/-- C1 witness: the amended statement at a concrete duplicate delivery. -/
theorem afterhours_dispatch_per_delivery_witness :
    jsTrim "hot water burst" ≠ "" ∧
    afterhoursTwoDeliveries false noFailures "hot water burst" none = 2 :=
  ⟨by decide,
   afterhours_dispatch_per_delivery false noFailures "hot water burst" none (by decide)⟩

/-- C2 counterexample: the classifier marks `answeredBy="machine"` with
status completed and duration 60s as answered, and absent `answeredBy` with
status completed and duration 3s as answered — the claim requires MISSED for
both. -/
theorem consideredAnswered_counterexample :
    consideredAnswered "completed" "machine" 60 = true ∧
    consideredAnswered "completed" "" 3 = true := by
  decide

/-- C2 amended: the classifier has no human/machine tier and no 10-12s
threshold; it reports answered exactly when the dial status is completed with
positive duration, or the `answeredBy` field is nonempty after trimming. -/
theorem consideredAnswered_characterization (s ab : String) (d : Nat) :
    consideredAnswered s ab d = true ↔
      (s = "completed" ∧ 0 < d) ∨ jsTrim ab ≠ "" := by
  unfold consideredAnswered
  split_ifs with h1 h2
  · simpa using Or.inl ⟨h1.1, h1.2⟩
  · have : jsTrim ab ≠ "" := by
      rw [string_ne_empty_iff]
      exact h2.2
    simpa using Or.inr this
  · rw [not_and_or] at h2
    constructor
    · intro h; cases h
    · rintro (⟨hc, hd⟩ | htr)
      · exact absurd ⟨hc, hd⟩ h1
      · rcases h2 with hab | hlen
        · rw [not_not] at hab
          subst hab
          exact absurd rfl htr
        · rw [string_ne_empty_iff] at htr
          exact absurd htr hlen

/-- C3 counterexample: a transcript full of emergency keywords with a missing
structured emergency field is classified non-urgent by the handler, although
the claimed policy (affirmative field OR transcript keyword) says urgent. -/
theorem urgency_ignores_transcript_keywords :
    (afterhoursHandler true noFailures "water is flooding the kitchen" none).urgent
        = false ∧
    specUrgencyClassifier "" "water is flooding the kitchen" = true := by
  decide

/-- C3 amended: urgency is decided solely from the structured emergency
field — true exactly when its lowercase form contains "yes", "urgent" or
"emergency"; the raw transcript is never consulted, and an unsure or missing
field yields non-urgent. -/
theorem urgency_from_structured_field_only :
    (∀ e : String, urgentFlag e = true ↔
      ("yes".toList <:+: (jsToLower e).toList ∨
       "urgent".toList <:+: (jsToLower e).toList ∨
       "emergency".toList <:+: (jsToLower e).toList)) ∧
    urgentFlag "unsure" = false ∧ urgentFlag "" = false ∧
    (∀ (ec : Bool) (f : ChannelFails) (sp : String) (ex : Extracted),
      (afterhoursHandler ec f sp (some ex)).urgent =
        (if jsTrim sp = "" then false else urgentFlag ex.emergency)) := by
  refine ⟨?_, by decide, by decide, ?_⟩
  · intro e
    simp [urgentFlag, strContains, hasSubstr_iff, jsToLower, or_assoc]
  · intro ec f sp ex
    by_cases h : jsTrim sp = ""
    · simp [afterhoursHandler, h]
    · by_cases hfix : bestSydneySuburb ex.location = "" <;>
        simp [afterhoursHandler, h, hfix, urgentFlag]

/-- C4: when the extraction call fails in any way, the handler keeps the
fallback record — issue equals the (trimmed) raw transcript, every other
field empty — and still dispatches the owner notification with it. -/
theorem extractor_failure_fallback (ec : Bool) (f : ChannelFails) (sp : String)
    (h : jsTrim sp ≠ "") :
    (afterhoursHandler ec f sp none).record = ⟨"", "", jsTrim sp, ""⟩ ∧
    Channel.ownerSms ∈ (afterhoursHandler ec f sp none).attempts := by
  unfold afterhoursHandler
  rw [if_neg h]
  have hb : bestSydneySuburb "" = "" := by decide
  constructor
  · simp [hb]
  · cases ec <;> simp [afterhoursSendPhase, seqAttempt, attemptCaught, hb]

/-- C4 witness: the fallback at a concrete failed extraction. -/
theorem extractor_failure_fallback_witness :
    jsTrim "my kitchen tap is leaking" ≠ "" ∧
    ((afterhoursHandler true noFailures "my kitchen tap is leaking" none).record
        = ⟨"", "", jsTrim "my kitchen tap is leaking", ""⟩ ∧
     Channel.ownerSms ∈
       (afterhoursHandler true noFailures "my kitchen tap is leaking" none).attempts) :=
  ⟨by decide,
   extractor_failure_fallback true noFailures "my kitchen tap is leaking" (by decide)⟩

/-- C5 counterexample: with open=22 and close=6 the evaluator reports hours
23 and 3 as outside business hours, while the claim requires the window to
wrap past midnight and report them within. -/
theorem overnight_window_not_wrapped :
    localHour (23 * 3600000) 0 = 23 ∧
    isWithinBusinessHours (23 * 3600000) 0 22 6 = false ∧
    localHour (3 * 3600000) 0 = 3 ∧
    isWithinBusinessHours (3 * 3600000) 0 22 6 = false := by
  decide

/-- C5 amended: the evaluator always tests `open ≤ hour AND hour < close`,
so a close hour below the open hour never matches: with open=22, close=6
every instant — hours 23, 3, 10 and 21 included — is outside business
hours. -/
theorem overnight_window_always_closed :
    ∀ (nowMs : Nat) (tz : Int), isWithinBusinessHours nowMs tz 22 6 = false := by
  intro nowMs tz
  by_cases h22 : 22 ≤ localHour nowMs tz
  · have h6 : ¬ localHour nowMs tz < 6 := by omega
    simp [isWithinBusinessHours, h6]
  · simp [isWithinBusinessHours, h22]

/-- C6 counterexample: in the missed-call entry point a failing owner text
aborts the handler, so the caller text and the owner email are never
attempted — channel failures are not isolated there. -/
theorem postdial_ownerSms_failure_suppresses_rest :
    Channel.callerSms ∉ (postDialHandler "no-answer" "" 0 true true ⟨true, false, false⟩).1 ∧
    Channel.ownerEmail ∉ (postDialHandler "no-answer" "" 0 true true ⟨true, false, false⟩).1 ∧
    Channel.ownerSms ∈ (postDialHandler "no-answer" "" 0 true true ⟨true, false, false⟩).1 := by
  decide

/-- C6 amended: in the after-hours entry point every channel is isolated
(failures never change the attempted channels), and in the missed-call entry
point only the email channel is isolated — an email failure changes nothing,
the owner text is always attempted, but an owner-text failure suppresses the
caller text and the email. -/
theorem channel_isolation_by_entry_point :
    (∀ (ec o c e : Bool),
      (afterhoursSendPhase ec ⟨o, c, e⟩).1 = (afterhoursSendPhase ec noFailures).1) ∧
    (∀ (cp ec o c e : Bool),
      (postDialSendPhase cp ec ⟨o, c, e⟩).1 = (postDialSendPhase cp ec ⟨o, c, false⟩).1) ∧
    (∀ (cp ec o c e : Bool),
      Channel.ownerSms ∈ (postDialSendPhase cp ec ⟨o, c, e⟩).1) ∧
    (postDialSendPhase true true ⟨true, false, false⟩).1 = [Channel.ownerSms] := by
  decide

/-- C7 counterexample: an internal failure in the index.js /voice handler
(missing owner number) produces a raw `500 Server error` response, not a
call-control document. -/
theorem voiceJs_internal_failure_raw_500 :
    (voiceHandlerJs none).status = 500 ∧ (voiceHandlerJs none).isTwiml = false := by
  decide

/-- C7 amended: the index.cjs /voice handler answers every request — internal
failure included — with a status-200 call-control document, while the
index.js /voice handler answers an internal failure with a raw 500. -/
theorem voice_error_responses_by_variant :
    (∀ (fi ih : Bool), (voiceHandlerCjs fi ih).status = 200 ∧
      (voiceHandlerCjs fi ih).isTwiml = true) ∧
    (voiceHandlerJs none).status = 500 := by
  decide

/-- C9: the business-hours evaluator is a pure function of the instant, the
time zone and the configured window — two environments agreeing on those
agree on the result, whatever the rest of the ambient state is. -/
theorem isWithinBusinessHours_pure (e₁ e₂ : ServerEnv)
    (hn : e₁.nowMs = e₂.nowMs) (ht : e₁.tzOffsetMin = e₂.tzOffsetMin)
    (hs : e₁.businessStart = e₂.businessStart)
    (he : e₁.businessEnd = e₂.businessEnd) :
    isWithinBusinessHoursEnv e₁ = isWithinBusinessHoursEnv e₂ := by
  unfold isWithinBusinessHoursEnv
  rw [hn, ht, hs, he]

/-- C9 witness: two environments sharing instant, zone and window but
differing in caller, speech and credentials evaluate equally. -/
theorem isWithinBusinessHours_pure_witness :
    isWithinBusinessHoursEnv ⟨36000000, 600, 8, 17, "+61400000001", "hello", "key-a"⟩ =
      isWithinBusinessHoursEnv ⟨36000000, 600, 8, 17, "+61400000002", "flooding", ""⟩ :=
  isWithinBusinessHours_pure _ _ rfl rfl rfl rfl

/-- C10: the gazetteer matcher only ever returns the empty string or an entry
of the fixed gazetteer — never the raw input or any other text. -/
theorem bestSydneySuburb_in_gazetteer (raw : String) :
    bestSydneySuburb raw = "" ∨ bestSydneySuburb raw ∈ sydneySuburbs := by
  simp only [bestSydneySuburb]
  by_cases hq0 : (cleanLocationText raw).toList = []
  · rw [if_pos hq0]
    exact Or.inl rfl
  · rw [if_neg hq0]
    rcases hbc : bestCandidateIn (cleanLocationText raw).toList sydneySuburbs with
      _ | ⟨e, d⟩ <;> dsimp only
    · exact Or.inl rfl
    · by_cases hthr : 10 * d ≤ 3 * (cleanLocationText raw).toList.length
      · rw [if_pos hthr]
        exact Or.inr (bestCandidateIn_mem sydneySuburbs _ (e, d) hbc)
      · rw [if_neg hthr]
        exact Or.inl rfl

/-- The edit distance vanishes exactly on equal lists. -/
theorem editDist_eq_zero_iff : ∀ (a b : List Char), editDist a b = 0 ↔ a = b := by
  intro a
  induction a with
  | nil =>
    intro b
    cases b with
    | nil => simp [editDist]
    | cons y ys => simp [editDist]
  | cons x xs ih =>
    intro b
    cases b with
    | nil => simp [editDist]
    | cons y ys =>
      by_cases hxy : x = y
      · subst hxy
        simp [editDist, ih]
      · simp [editDist, hxy]

/-- A left fold by minimum hits zero exactly when the seed or some element is
zero. -/
theorem foldl_min_eq_zero_iff :
    ∀ (l : List Nat) (i : Nat), l.foldl Nat.min i = 0 ↔ i = 0 ∨ ∃ x ∈ l, x = 0 := by
  intro l
  induction l with
  | nil => intro i; simp
  | cons a t ih =>
    intro i
    simp only [List.foldl_cons, ih, Nat.min_eq_zero_iff, List.mem_cons]
    aesop

/-- The substring enumeration is exactly the infix relation. -/
theorem mem_substrings_iff (s t : List Char) : s ∈ substrings t ↔ s <:+: t := by
  simp only [substrings, List.mem_flatten, List.mem_map]
  constructor
  · rintro ⟨w, ⟨suf, hsuf, rfl⟩, hs⟩
    rw [List.mem_inits] at hs
    rw [List.mem_tails] at hsuf
    exact List.infix_iff_prefix_suffix.mpr ⟨suf, hs, hsuf⟩
  · intro h
    obtain ⟨m, hpre, hsuf⟩ := List.infix_iff_prefix_suffix.mp h
    exact ⟨m.inits, ⟨m, (List.mem_tails _ _).mpr hsuf, rfl⟩, (List.mem_inits _ _).mpr hpre⟩

/-- The modelled similarity vanishes exactly when the query occurs verbatim
inside the candidate. -/
theorem fuseDist_eq_zero_iff (q t : List Char) : fuseDist q t = 0 ↔ q <:+: t := by
  unfold fuseDist
  rw [foldl_min_eq_zero_iff]
  constructor
  · rintro (hq | ⟨x, hx, hx0⟩)
    · have hq0 : q = [] := List.length_eq_zero.mp hq
      subst hq0
      exact List.nil_infix
    · rw [List.mem_map] at hx
      obtain ⟨s, hs, hxeq⟩ := hx
      rw [← hxeq] at hx0
      have hqs : q = s := (editDist_eq_zero_iff q s).mp hx0
      subst hqs
      exact (mem_substrings_iff q t).mp hs
  · intro h
    exact Or.inr ⟨editDist q q,
      List.mem_map.mpr ⟨q, (mem_substrings_iff q t).mpr h, rfl⟩,
      (editDist_eq_zero_iff q q).mpr rfl⟩

/-- In the ranked search, an entry matching at distance zero that is preceded
only by entries at nonzero distance is the top-ranked result. -/
theorem bestCandidateIn_append_zero (q : List Char) :
    ∀ (l₁ : List String) (e : String) (l₂ : List String),
      (∀ b ∈ l₁, fuseDist q (toLowerList b) ≠ 0) →
      fuseDist q (toLowerList e) = 0 →
      bestCandidateIn q (l₁ ++ e :: l₂) = some (e, 0) := by
  intro l₁
  induction l₁ with
  | nil =>
    intro e l₂ _ he
    simp only [List.nil_append, bestCandidateIn]
    rcases hrec : bestCandidateIn q l₂ with _ | ⟨b, db⟩ <;> dsimp only
    · rw [he]
    · rw [he, if_neg (Nat.not_lt_zero db)]
  | cons b rest ih =>
    intro e l₂ hne he
    have hb := hne b (List.mem_cons_self b rest)
    have hrest : ∀ x ∈ rest, fuseDist q (toLowerList x) ≠ 0 := fun x hx =>
      hne x (List.mem_cons_of_mem b hx)
    have hih := ih e l₂ hrest he
    simp only [List.cons_append, bestCandidateIn, List.append_eq, hih]
    rw [if_pos (Nat.pos_of_ne_zero hb)]

/-- Every gazetteer entry normalizes to its own lowercase form, which is
nonempty. -/
theorem gazetteer_norm_check :
    sydneySuburbs.all (fun e =>
      ((cleanLocationText e).toList == toLowerList e) &&
      !(cleanLocationText e).toList.isEmpty) = true := by
  decide

/-- No gazetteer entry contains a later entry as a case-insensitive
substring, so an exact entry is never shadowed by an earlier candidate. -/
theorem gazetteer_no_earlier_containment :
    List.Pairwise
      (fun b e => hasSubstr (toLowerList b) (toLowerList e) = false)
      sydneySuburbs := by
  decide

/-- C8: the gazetteer matcher is idempotent on canonical entries — matching a
name that is itself a gazetteer entry returns that same name, never the empty
string and never a different entry. -/
theorem bestSydneySuburb_idempotent (e : String) (h : e ∈ sydneySuburbs) :
    bestSydneySuburb e = e := by
  have hchk := List.all_eq_true.mp gazetteer_norm_check e h
  rw [Bool.and_eq_true] at hchk
  have hq : (cleanLocationText e).toList = toLowerList e := eq_of_beq hchk.1
  have hne : (cleanLocationText e).toList ≠ [] := by
    intro hcon
    rw [hcon] at hchk
    exact Bool.false_ne_true hchk.2
  obtain ⟨l₁, l₂, hsplit⟩ := List.append_of_mem h
  have hpw := gazetteer_no_earlier_containment
  rw [hsplit] at hpw
  have hearlier : ∀ b ∈ l₁, fuseDist (toLowerList e) (toLowerList b) ≠ 0 := by
    intro b hb
    have hr := (List.pairwise_append.mp hpw).2.2 b hb e (List.mem_cons_self e l₂)
    intro h0
    rw [fuseDist_eq_zero_iff, ← hasSubstr_iff, hr] at h0
    exact Bool.false_ne_true h0
  have hzero : fuseDist (toLowerList e) (toLowerList e) = 0 :=
    (fuseDist_eq_zero_iff _ _).mpr (List.infix_refl _)
  have hsel : bestCandidateIn (toLowerList e) sydneySuburbs = some (e, 0) := by
    rw [hsplit]
    exact bestCandidateIn_append_zero (toLowerList e) l₁ e l₂ hearlier hzero
  simp only [bestSydneySuburb, hq]
  rw [if_neg (hq ▸ hne), hsel]
  dsimp only
  rw [if_pos (by simp)]

/-- C8 witness: idempotence at the concrete entry Canley Vale. -/
theorem bestSydneySuburb_idempotent_witness :
    "Canley Vale" ∈ sydneySuburbs ∧ bestSydneySuburb "Canley Vale" = "Canley Vale" :=
  ⟨by decide, bestSydneySuburb_idempotent "Canley Vale" (by decide)⟩
